import Mathlib

/-!
Shallow embedding of the cell-count analysis pipeline
(`relative_cell_counter.py`, `cell_treatment_analyzer.py`, `common.py`,
`relative_cell_counts.py`).

Modelling conventions:
* Python CSV rows are `List String`; a CSV is a `List Row`.
* Python `dict` (insertion-ordered, unique keys) is an association list
  `List (String × α)`; assignment updates in place or appends at the end.
* Python exceptions (`ValueError`, `KeyError`, `IndexError`,
  `ZeroDivisionError`) are `Except String`.
* Python `StrEnum` members created through the functional API have the
  lower-cased member name as value, so `CELL_TYPES` is the list of strings
  `["b_cell", …]` and the output headers are `["sample", "total_count", …]`;
  members hash and compare as those strings.
* Python float arithmetic on the percentage `(count / total) * 100` followed
  by `f"{·:.2f}"` formatting is modelled as the exact rational value rounded
  half-to-even to hundredths, computed on integers; `float(s)` on the decimal
  strings of this pipeline is modelled as exact decimal parsing to `ℚ`.
-/

namespace CellCounts

abbrev Row := List String
abbrev Csv := List Row

/-- Python `dict` with string keys: insertion-ordered association list. -/
abbrev PyDict (α : Type) := List (String × α)

/-- Python `dict.get` / `d[k]` lookup (first matching key; keys are unique). -/
def dictGet? {α : Type} : PyDict α → String → Option α
  | [], _ => none
  | (k', v) :: rest, k => if k' = k then some v else dictGet? rest k

/-- Python `d[k] = v`: update in place if the key exists, else append. -/
def dictSet {α : Type} : PyDict α → String → α → PyDict α
  | [], k, v => [(k, v)]
  | (k', v') :: rest, k, v =>
      if k' = k then (k', v) :: rest else (k', v') :: dictSet rest k v

/-- Python list indexing `row[i]` (non-negative index): `IndexError` when out
of range. -/
def pyIndex {α : Type} (row : List α) (i : Nat) : Except String α :=
  match row.get? i with
  | some x => Except.ok x
  | none => Except.error "IndexError: list index out of range"

/-- Python `d[k]` on a headers dict: `KeyError` when the key is absent. -/
def headersGet (h : PyDict Nat) (k : String) : Except String Nat :=
  match dictGet? h k with
  | some i => Except.ok i
  | none => Except.error ("KeyError: " ++ k)

/-- `mapM` for `Except String`, written out so proofs can unfold it. -/
def exceptMapM {α β : Type} (f : α → Except String β) : List α → Except String (List β)
  | [] => Except.ok []
  | a :: as =>
      match f a with
      | Except.ok b =>
          match exceptMapM f as with
          | Except.ok bs => Except.ok (b :: bs)
          | Except.error e => Except.error e
      | Except.error e => Except.error e

/-- `foldlM` for `Except String`, written out so proofs can unfold it. -/
def exceptFoldl {σ α : Type} (f : σ → α → Except String σ) (init : σ) :
    List α → Except String σ
  | [] => Except.ok init
  | a :: as =>
      match f init a with
      | Except.ok s => exceptFoldl f s as
      | Except.error e => Except.error e

/-- `mapM` for `Option`, written out so proofs can unfold it. -/
def optMapM {α β : Type} (f : α → Option β) : List α → Option (List β)
  | [] => some []
  | a :: as =>
      match f a, optMapM f as with
      | some b, some bs => some (b :: bs)
      | _, _ => none

/- ## Constants from `common.py` / `relative_cell_counter.py` /
`cell_treatment_analyzer.py` (StrEnum values are the lower-cased names) -/

def SAMPLE_HEADER : String := "sample"

/-- `CELL_TYPES = StrEnum("Immune Cell Types", [...])`: the member values. -/
def CELL_TYPES : List String :=
  ["b_cell", "cd8_t_cell", "cd4_t_cell", "nk_cell", "monocyte"]

/-- `OUTPUT_HEADERS = StrEnum("Output CSV Headers", [...])`: the member values. -/
def OUTPUT_HEADERS : List String :=
  ["sample", "total_count", "population", "count", "percentage"]

def POPULATION_HEADER : String := "population"
def PERCENTAGE_HEADER : String := "percentage"
def TREATMENT_HEADER : String := "treatment"
def TREATMENT : String := "tr1"
def SAMPLE_TYPE_HEADER : String := "sample_type"
def INCLUDE_SAMPLE_TYPES : List String := ["PBMC"]
def RESPONSE_HEADER : String := "response"
def RESPONDING : String := "y"
def NONRESPONDING : String := "n"

/- ## Numeric parsing and decimal formatting -/

/-- Value of a decimal digit character. -/
def charVal (c : Char) : Nat := c.toNat - 48

/-- Character of a decimal digit value. -/
def digitChar (d : Nat) : Char := Char.ofNat (48 + d)

/-- Value of a most-significant-first digit list. -/
def valMSB (ds : List Nat) : Nat := ds.foldl (fun a d => 10 * a + d) 0

/-- Value of a most-significant-first list of digit characters. -/
def digitsVal (cs : List Char) : Nat := valMSB (cs.map charVal)

/-- Decimal digits of `n`, least significant first, with explicit fuel
(structural recursion so that the kernel can evaluate it). -/
def natToRevDigitsAux : Nat → Nat → List Nat
  | _, 0 => []
  | 0, _ + 1 => []
  | fuel + 1, n + 1 => ((n + 1) % 10) :: natToRevDigitsAux fuel ((n + 1) / 10)

/-- Decimal digits of `n`, least significant first (empty for `0`). -/
def natToRevDigits (n : Nat) : List Nat := natToRevDigitsAux n n

/-- Decimal rendering of a natural number, as Python `str` produces it. -/
def natRepr (n : Nat) : String :=
  String.mk (if n = 0 then ['0'] else ((natToRevDigits n).map digitChar).reverse)

/-- Decimal rendering of an integer, as Python `str` produces it. -/
def intRepr (i : Int) : String :=
  if i < 0 then "-" ++ natRepr i.natAbs else natRepr i.toNat

/-- Digit-string parser: `some` of the value for a nonempty all-digit string. -/
def parseDigits (cs : List Char) : Option Nat :=
  if cs ≠ [] ∧ cs.all Char.isDigit then some (digitsVal cs) else none

/-- Parse a signed integer literal. -/
def parseInt? (s : String) : Option Int :=
  match s.toList with
  | [] => none
  | c :: rest =>
      if c = '-' then (parseDigits rest).map (fun n => -(n : Int))
      else if c = '+' then (parseDigits rest).map (fun n => (n : Int))
      else (parseDigits (c :: rest)).map (fun n => (n : Int))

/-- Python `int(s)` on the canonical integer strings of this pipeline
(`ValueError` when the string is not an integer literal). -/
def pyInt (s : String) : Except String Int :=
  match parseInt? s with
  | some n => Except.ok n
  | none => Except.error ("ValueError: invalid literal for int: " ++ s)

/-- Is a character different from the decimal point? -/
def notDot (c : Char) : Bool := c ≠ '.'

/-- Parse an unsigned decimal literal (`"12"`, `"12.5"`, `".5"`, `"12."`).
The value of `"a.b"` is `mkRat (a·10^|b| + b) (10^|b|)`, i.e. `a + b/10^|b|`
(see `parseUnsignedDecimal_formatNat`); `mkRat` is used so the kernel can
evaluate concrete instances. -/
def parseUnsignedDecimal (cs : List Char) : Option ℚ :=
  let ip := cs.takeWhile notDot
  match cs.dropWhile notDot with
  | [] => (parseDigits ip).map (fun n => (n : ℚ))
  | _ :: fp =>
      if ip.all Char.isDigit ∧ fp.all Char.isDigit ∧ (ip ≠ [] ∨ fp ≠ []) then
        some (mkRat (digitsVal ip * 10 ^ fp.length + digitsVal fp) (10 ^ fp.length))
      else none

/-- Python `float(s)` on the decimal strings of this pipeline, as an exact
rational. -/
def parseDecimal (s : String) : Option ℚ :=
  match s.toList with
  | [] => none
  | c :: rest =>
      if c = '-' then (parseUnsignedDecimal rest).map (fun q => -q)
      else if c = '+' then parseUnsignedDecimal rest
      else parseUnsignedDecimal (c :: rest)

/-- Python `float(s)` with its `ValueError` on failure. -/
def pyFloat (s : String) : Except String ℚ :=
  match parseDecimal s with
  | some q => Except.ok q
  | none => Except.error ("ValueError: could not convert string to float: " ++ s)

/-- Round the fraction `a / b` to the nearest integer, ties to even (the
rounding of `f"{x:.2f}"`), computed on integers. -/
def roundHalfEvenFrac (a b : ℤ) : ℤ :=
  let a' := if b < 0 then -a else a
  let b' := if b < 0 then -b else b
  let n := Int.ediv a' b'
  let r := Int.emod a' b'
  if 2 * r < b' then n
  else if b' < 2 * r then n + 1
  else if Int.emod n 2 = 0 then n else n + 1

/-- The two-decimal percentage `f"{(count / total) * 100:.2f}"`, as an integer
number of hundredths of a percent. -/
def pctHundredths (count total : ℤ) : ℤ :=
  roundHalfEvenFrac (count * 10000) total

/-- Render a non-negative number of hundredths as `"d…d.dd"`. -/
def formatNatHundredths (n : Nat) : String :=
  natRepr (n / 100) ++ String.mk ('.' :: [digitChar (n % 100 / 10), digitChar (n % 100 % 10)])

/-- Render a number of hundredths as Python `f"{·:.2f}"` renders the value. -/
def formatHundredths (h : Int) : String :=
  if h < 0 then "-" ++ formatNatHundredths h.natAbs else formatNatHundredths h.toNat

/- ## `relative_cell_counter.py` -/

/-- `csv_row[csv_headers[name]]`. -/
def getField (h : PyDict Nat) (row : Row) (name : String) : Except String String := do
  let i ← headersGet h name
  pyIndex row i

/-- `int(csv_row[csv_headers[name]])`. -/
def fieldInt (h : PyDict Nat) (row : Row) (name : String) : Except String Int := do
  let s ← getField h row name
  pyInt s

/-- `get_output_csv_row` of `relative_cell_counter.py`: one output record;
Python raises `ZeroDivisionError` when `total_count` is zero. -/
def get_output_csv_row (sample : String) (total_count : ℤ) (population : String)
    (count : ℤ) : Except String Row :=
  if total_count = 0 then Except.error "ZeroDivisionError: division by zero"
  else
    Except.ok [sample, intRepr total_count, population, intRepr count,
      formatHundredths (pctHundredths count total_count)]

/-- `convert_sample_cell_count` of `relative_cell_counter.py`: parse the five
cell-type counts, total them, and emit one record per cell type in
enumeration order. -/
def convert_sample_cell_count (csv_headers : PyDict Nat) (csv_row : Row) :
    Except String Csv := do
  let counts ← exceptMapM (fieldInt csv_headers csv_row) CELL_TYPES
  let total_count := counts.sum
  let sample ← getField csv_headers csv_row SAMPLE_HEADER
  exceptMapM (fun p => get_output_csv_row sample total_count p.1 p.2)
    (CELL_TYPES.zip counts)

/-- `convert_cell_count` of `relative_cell_counter.py`: header row followed by
each sample's block of records, in input row order. -/
def convert_cell_count (csv_headers : PyDict Nat) (csv_rows : Csv) :
    Except String Csv := do
  let blocks ← exceptMapM (convert_sample_cell_count csv_headers) csv_rows
  return OUTPUT_HEADERS :: blocks.flatten

/- ## `common.py` -/

/-- `get_csv_headers` of `common.py`: map each required header name to its
first index in the header row; `ValueError` when one is missing.
(`relative_cell_counts.py` has the same function with the required list fixed
to `[SAMPLE_HEADER] + list(CELL_TYPES)`.) -/
def get_csv_headers (header_row : List String) (required_headers : List String) :
    Except String (PyDict Nat) :=
  if required_headers.all (fun h => header_row.contains h) then
    Except.ok (required_headers.foldl
      (fun acc h => dictSet acc h (header_row.findIdx (fun s => s == h))) [])
  else
    Except.error "ValueError: CSV is missing one or more required headers"

/- ## `cell_treatment_analyzer.py` -/

/-- Python truthiness of `sample_responders.get(cell_type)`: `None` (absent)
and `0.0` are falsy, any other float is truthy. -/
def truthyFloat : Option ℚ → Bool
  | some v => v ≠ 0
  | none => false

/-- Loop body of `get_sample_relative` of `cell_treatment_analyzer.py`: for a
row of the relative-count CSV matching `sample_id`, check the duplicate guard
`if sample_responders.get(cell_type):`, then record the parsed percentage. -/
def get_sample_relative_step (relative_headers : PyDict Nat) (sample_id : String)
    (sample_responders : PyDict ℚ) (csv_row : Row) : Except String (PyDict ℚ) := do
  let sv ← getField relative_headers csv_row SAMPLE_HEADER
  if sv = sample_id then
    let cell_type ← getField relative_headers csv_row POPULATION_HEADER
    if truthyFloat (dictGet? sample_responders cell_type) then
      Except.error ("ValueError: Given CSV is invalid; expected 1 entry per population, " ++
        "per sample, but got multiple entries for sample " ++ sample_id ++
        " with population " ++ cell_type)
    else do
      let ps ← getField relative_headers csv_row PERCENTAGE_HEADER
      let population_percentage ← pyFloat ps
      return dictSet sample_responders cell_type population_percentage
  else
    return sample_responders

/-- `get_sample_relative` of `cell_treatment_analyzer.py`: scan the
relative-count CSV for rows of `sample_id`, building a cell-type → percentage
mapping. -/
def get_sample_relative (relative_headers : PyDict Nat) (relative_csv : Csv)
    (sample_id : String) : Except String (PyDict ℚ) :=
  exceptFoldl (get_sample_relative_step relative_headers sample_id) [] relative_csv

/-- `for cell_type, relative_count in sample_relative_count.items():
population_counter[cell_type].append(relative_count)` — Python raises
`KeyError` when `cell_type` is not a key of the counter. -/
def appendAll (counter : PyDict (List ℚ)) (items : PyDict ℚ) :
    Except String (PyDict (List ℚ)) :=
  exceptFoldl
    (fun c p =>
      match dictGet? c p.1 with
      | some lst => Except.ok (dictSet c p.1 (lst ++ [p.2]))
      | none => Except.error ("KeyError: " ++ p.1))
    counter items

/-- The pair (responders, nonresponders) accumulated by `calculate_responders`. -/
abbrev Cohorts := PyDict (List ℚ) × PyDict (List ℚ)

/-- The initialization loop of `calculate_responders`:
`for cell_type in CELL_TYPES: population_responders[cell_type] = [] …`. -/
def initCohorts : Cohorts :=
  (CELL_TYPES.foldl (fun d ct => dictSet d ct []) [],
   CELL_TYPES.foldl (fun d ct => dictSet d ct []) [])

/-- Loop body of `calculate_responders` of `cell_treatment_analyzer.py` for
one treatment row (`and` short-circuits as in Python). -/
def calculate_responders_step (treatment_headers relative_headers : PyDict Nat)
    (relative_csv : Csv) (st : Cohorts) (sample : Row) : Except String Cohorts := do
  let tv ← getField treatment_headers sample TREATMENT_HEADER
  if tv = TREATMENT then
    let sy ← getField treatment_headers sample SAMPLE_TYPE_HEADER
    if sy ∈ INCLUDE_SAMPLE_TYPES then
      let sample_id ← getField treatment_headers sample SAMPLE_HEADER
      let sample_relative_count ← get_sample_relative relative_headers relative_csv sample_id
      let rv ← getField treatment_headers sample RESPONSE_HEADER
      if rv = RESPONDING then
        let r ← appendAll st.1 sample_relative_count
        return (r, st.2)
      else
        let n ← appendAll st.2 sample_relative_count
        return (st.1, n)
    else
      return st
  else
    return st

/-- `calculate_responders` of `cell_treatment_analyzer.py`: returns the
(responders, nonresponders) mappings from cell type to percentage lists. -/
def calculate_responders (treatment_headers : PyDict Nat) (treatment_csv : Csv)
    (relative_headers : PyDict Nat) (relative_csv : Csv) : Except String Cohorts :=
  exceptFoldl (calculate_responders_step treatment_headers relative_headers relative_csv)
    initCohorts treatment_csv

/-- The filter of `calculate_responders`, as a predicate on a treatment row:
treatment field equals `TREATMENT` and sample-type field is in
`INCLUDE_SAMPLE_TYPES`. -/
def rowQualifies (treatment_headers : PyDict Nat) (row : Row) : Bool :=
  match getField treatment_headers row TREATMENT_HEADER with
  | Except.ok t =>
      if t = TREATMENT then
        match getField treatment_headers row SAMPLE_TYPE_HEADER with
        | Except.ok s => decide (s ∈ INCLUDE_SAMPLE_TYPES)
        | Except.error _ => false
      else false
  | Except.error _ => false

/-- Read back the percentage field (index 4) of an output record as a decimal
number. -/
def readPct (r : Row) : Option ℚ := (r[4]?).bind parseDecimal

/-- Sum of the read-back percentage fields of a list of output records. -/
def readbackSum (rows : Csv) : Option ℚ := (optMapM readPct rows).map List.sum

/-- Does a relative-count row's sample field read back as `s`? -/
def relSampleIs (rh : PyDict Nat) (s : String) (row : Row) : Bool :=
  match getField rh row SAMPLE_HEADER with
  | Except.ok sv => sv = s
  | Except.error _ => false

/-- The population field of a relative-count row (defaulting to `""` when
unreadable; only used under hypotheses making it readable). -/
def relPopOf (rh : PyDict Nat) (row : Row) : String :=
  match getField rh row POPULATION_HEADER with
  | Except.ok ct => ct
  | Except.error _ => ""

/-- A relative-count row is fully readable: sample, population and percentage
fields are accessible, the population is one of the five cell types, and the
percentage parses as a decimal. -/
def relRowOk (rh : PyDict Nat) (row : Row) : Bool :=
  (match getField rh row SAMPLE_HEADER with
   | Except.ok _ => true
   | Except.error _ => false) &&
  (match getField rh row POPULATION_HEADER with
   | Except.ok ct => decide (ct ∈ CELL_TYPES)
   | Except.error _ => false) &&
  (match getField rh row PERCENTAGE_HEADER with
   | Except.ok ps => (parseDecimal ps).isSome
   | Except.error _ => false)

/- ## Dictionary lemmas -/

theorem dictGet?_dictSet_self {α : Type} (d : PyDict α) (k : String) (v : α) :
    dictGet? (dictSet d k v) k = some v := by
  induction d with
  | nil => simp [dictSet, dictGet?]
  | cons p rest ih =>
      by_cases h : p.1 = k
      · simp [dictSet, dictGet?, h]
      · simp [dictSet, dictGet?, h, ih]

theorem dictGet?_dictSet_ne {α : Type} (d : PyDict α) {k k' : String} (v : α)
    (h : k' ≠ k) : dictGet? (dictSet d k' v) k = dictGet? d k := by
  induction d with
  | nil => simp [dictSet, dictGet?, h]
  | cons p rest ih =>
      by_cases hp : p.1 = k'
      · simp [dictSet, dictGet?, hp, h]
      · simp [dictSet, dictGet?, hp, ih]

theorem dictGet?_eq_none_iff {α : Type} (d : PyDict α) (k : String) :
    dictGet? d k = none ↔ k ∉ d.map Prod.fst := by
  induction d with
  | nil => simp [dictGet?]
  | cons p rest ih =>
      by_cases h : p.1 = k
      · simp [dictGet?, h]
      · simp [dictGet?, h, ih, Ne.symm h]

theorem dictGet?_isSome_iff {α : Type} (d : PyDict α) (k : String) :
    (dictGet? d k).isSome ↔ k ∈ d.map Prod.fst := by
  induction d with
  | nil => simp [dictGet?]
  | cons p rest ih =>
      by_cases h : p.1 = k
      · simp [dictGet?, h]
      · simp [dictGet?, h, ih, Ne.symm h]

theorem dictSet_of_not_mem {α : Type} (d : PyDict α) {k : String} (v : α)
    (h : k ∉ d.map Prod.fst) : dictSet d k v = d ++ [(k, v)] := by
  induction d with
  | nil => simp [dictSet]
  | cons p rest ih =>
      simp only [List.map_cons, List.mem_cons, not_or] at h
      simp [dictSet, Ne.symm h.1, ih h.2]

theorem dictSet_keys_of_mem {α : Type} (d : PyDict α) {k : String} (v : α)
    (h : k ∈ d.map Prod.fst) : (dictSet d k v).map Prod.fst = d.map Prod.fst := by
  induction d with
  | nil => simp at h
  | cons p rest ih =>
      by_cases hp : p.1 = k
      · simp [dictSet, hp]
      · simp only [List.map_cons, List.mem_cons, Ne.symm hp, false_or] at h
        simp [dictSet, hp, ih h]

/- ## `findIdx` first-occurrence lemmas -/

theorem get?_findIdx_of_mem (l : List String) (h : String) (hmem : h ∈ l) :
    l.get? (l.findIdx (fun s => s == h)) = some h ∧
      ∀ j < l.findIdx (fun s => s == h), l.get? j ≠ some h := by
  induction l with
  | nil => simp at hmem
  | cons a rest ih =>
      by_cases ha : a = h
      · subst ha
        simp [List.findIdx_cons]
      · have hmem' : h ∈ rest := by
          rcases List.mem_cons.1 hmem with h1 | h1
          · exact absurd h1.symm ha
          · exact h1
        have heq : (a == h) = false := by simp [ha]
        rcases ih hmem' with ⟨ih1, ih2⟩
        have hf : (a :: rest).findIdx (fun s => s == h)
            = rest.findIdx (fun s => s == h) + 1 := by
          simp [List.findIdx_cons, heq]
        refine ⟨?_, ?_⟩
        · rw [hf]
          simpa using ih1
        · intro j hj
          rw [hf] at hj
          cases j with
          | zero => simp [ha]
          | succ j' =>
              have hj' : j' < rest.findIdx (fun s => s == h) := by omega
              simpa using ih2 j' hj'

/- ## Header-resolver lemmas -/

theorem dictGet?_foldl_set {α : Type} (f : String → α) (req : List String)
    (d : PyDict α) (k : String) :
    dictGet? (req.foldl (fun acc h => dictSet acc h (f h)) d) k
      = if k ∈ req then some (f k) else dictGet? d k := by
  induction req generalizing d with
  | nil => simp
  | cons h t ih =>
      by_cases hk : k ∈ t
      · simp [ih, hk]
      · by_cases hhk : h = k
        · subst hhk
          simp [ih, hk, dictGet?_dictSet_self]
        · simp [ih, hk, hhk, dictGet?_dictSet_ne _ _ hhk, Ne.symm hhk]

theorem get_csv_headers_ok_of_all_mem (header_row required_headers : List String)
    (hall : ∀ h ∈ required_headers, h ∈ header_row) :
    get_csv_headers header_row required_headers =
      Except.ok (required_headers.foldl
        (fun acc h => dictSet acc h (header_row.findIdx (fun s => s == h))) []) := by
  have hc : required_headers.all (fun h => header_row.contains h) = true := by
    rw [List.all_eq_true]
    intro x hx
    exact List.elem_iff.2 (hall x hx)
  unfold get_csv_headers
  rw [hc]
  simp

/-- C6: for every header row and list of required column names,
`get_csv_headers` returns a mapping of each required name to its zero-based
index (its leftmost occurrence) in the header row; it raises a validation
error exactly when some required name is absent; extra or unknown columns and
column order are ignored, and names are matched case-sensitively and exactly
(plain string equality). -/
theorem C6_header_resolver_contract (header_row required_headers : List String) :
    ((∃ h ∈ required_headers, h ∉ header_row) ↔
      get_csv_headers header_row required_headers =
        Except.error "ValueError: CSV is missing one or more required headers") ∧
    (∀ m, get_csv_headers header_row required_headers = Except.ok m →
      ∀ h ∈ required_headers,
        ∃ i, dictGet? m h = some i ∧ header_row.get? i = some h ∧
          ∀ j < i, header_row.get? j ≠ some h) := by
  constructor
  · constructor
    · rintro ⟨h, hmem, habs⟩
      have hc : required_headers.all (fun h => header_row.contains h) = false := by
        rw [← Bool.not_eq_true, List.all_eq_true]
        intro hc
        exact habs (List.elem_iff.1 (hc h hmem))
      unfold get_csv_headers
      rw [hc]
      simp
    · intro herr
      by_contra hno
      push_neg at hno
      have := get_csv_headers_ok_of_all_mem header_row required_headers hno
      rw [this] at herr
      exact Except.noConfusion herr
  · intro m hm h hmem
    by_cases hall : ∀ x ∈ required_headers, x ∈ header_row
    · rw [get_csv_headers_ok_of_all_mem header_row required_headers hall] at hm
      have hm' := Except.ok.inj hm
      subst hm'
      refine ⟨header_row.findIdx (fun s => s == h), ?_, ?_⟩
      · rw [dictGet?_foldl_set]
        simp [hmem]
      · exact get?_findIdx_of_mem header_row h (hall h hmem)
    · push_neg at hall
      rcases hall with ⟨x, hx1, hx2⟩
      have hc : required_headers.all (fun h => header_row.contains h) = false := by
        rw [← Bool.not_eq_true, List.all_eq_true]
        intro hc
        exact hx2 (List.elem_iff.1 (hc x hx1))
      unfold get_csv_headers at hm
      rw [hc] at hm
      simp at hm

/-- Witness for C6 at a concrete header row and required list. -/
theorem C6_header_resolver_contract_witness :
    ∃ i, dictGet? [("b_cell", (1 : Nat))] "b_cell" = some i ∧
      ["sample", "b_cell"].get? i = some "b_cell" ∧
      ∀ j < i, ["sample", "b_cell"].get? j ≠ some "b_cell" :=
  (C6_header_resolver_contract ["sample", "b_cell"] ["b_cell"]).2
    [("b_cell", 1)] rfl "b_cell" (by decide)

/-- C9: when a required name occurs more than once in the header row,
`get_csv_headers` does not raise; it succeeds and maps that name to the index
of its first (leftmost) occurrence. -/
theorem C9_duplicate_header_maps_to_first (header_row required_headers : List String)
    (name : String)
    (hall : ∀ h ∈ required_headers, h ∈ header_row)
    (hname : name ∈ required_headers)
    (hdup : 2 ≤ header_row.count name) :
    ∃ m, get_csv_headers header_row required_headers = Except.ok m ∧
      ∃ i, dictGet? m name = some i ∧ header_row.get? i = some name ∧
        ∀ j < i, header_row.get? j ≠ some name := by
  refine ⟨_, get_csv_headers_ok_of_all_mem header_row required_headers hall, ?_⟩
  refine ⟨header_row.findIdx (fun s => s == name), ?_, ?_⟩
  · rw [dictGet?_foldl_set]
    simp [hname]
  · exact get?_findIdx_of_mem header_row name (hall name hname)

/-- Witness for C9: header row with `b_cell` twice resolves to index 1. -/
theorem C9_duplicate_header_maps_to_first_witness :
    ∃ m, get_csv_headers ["sample", "b_cell", "b_cell"] ["sample", "b_cell"] =
        Except.ok m ∧
      ∃ i, dictGet? m "b_cell" = some i ∧
        ["sample", "b_cell", "b_cell"].get? i = some "b_cell" ∧
        ∀ j < i, ["sample", "b_cell", "b_cell"].get? j ≠ some "b_cell" :=
  C9_duplicate_header_maps_to_first ["sample", "b_cell", "b_cell"] ["sample", "b_cell"]
    "b_cell" (by decide) (by decide) (by decide)

/- ## `Except` monad computation lemmas -/

theorem exceptBind_ok {α β : Type} (a : α) (f : α → Except String β) :
    (Except.ok a >>= f) = f a := rfl

theorem exceptBind_err {α β : Type} (e : String) (f : α → Except String β) :
    ((Except.error e : Except String α) >>= f) = Except.error e := rfl

theorem exceptPure {α : Type} (a : α) : (pure a : Except String α) = Except.ok a := rfl

theorem exceptFoldl_append {σ α : Type} (f : σ → α → Except String σ) (init : σ)
    (l₁ l₂ : List α) :
    exceptFoldl f init (l₁ ++ l₂) =
      match exceptFoldl f init l₁ with
      | Except.ok s => exceptFoldl f s l₂
      | Except.error e => Except.error e := by
  induction l₁ generalizing init with
  | nil => simp [exceptFoldl]
  | cons a as ih =>
      simp only [List.cons_append, exceptFoldl]
      cases f init a with
      | ok s => exact ih s
      | error e => rfl

theorem exceptMapM_ok_forall₂ {α β : Type} {f : α → Except String β} :
    ∀ {l : List α} {b : List β}, exceptMapM f l = Except.ok b →
      List.Forall₂ (fun a x => f a = Except.ok x) l b := by
  intro l
  induction l with
  | nil =>
      intro b hb
      simp only [exceptMapM] at hb
      cases hb
      exact List.Forall₂.nil
  | cons a as ih =>
      intro b hb
      simp only [exceptMapM] at hb
      cases hfa : f a with
      | error e => rw [hfa] at hb; exact Except.noConfusion hb
      | ok x =>
          rw [hfa] at hb
          cases hrest : exceptMapM f as with
          | error e => rw [hrest] at hb; exact Except.noConfusion hb
          | ok xs =>
              rw [hrest] at hb
              cases hb
              exact List.Forall₂.cons hfa (ih hrest)

/- ## C1: duplicate-record guard in `get_sample_relative` -/

/-- C1 (behavior of the code at the failing input): a relative-count table
with two records for the pair `(S1, b_cell)` whose first record has
percentage `0.00` does NOT raise; `get_sample_relative` silently overwrites
the first record and returns successfully, because the duplicate guard
`if sample_responders.get(cell_type):` treats the stored falsy value `0.0`
as absence. This contradicts the claimed invariant (a duplicate for the same
(sample id, cell type) pair must always fail loudly). -/
theorem C1_duplicate_zero_percentage_overwritten :
    get_sample_relative
      [("sample", 0), ("total_count", 1), ("population", 2), ("count", 3), ("percentage", 4)]
      [["S1", "100", "b_cell", "0", "0.00"], ["S1", "100", "b_cell", "5", "5.00"]]
      "S1" = Except.ok [("b_cell", 5)] := rfl

/- ## C3: all-zero sample raises a division-by-zero error -/

/-- C3: for every header mapping and sample row whose five cell-type fields
all parse as the integer `0` (and whose sample field is readable), the
converter raises the `ZeroDivisionError`; it does not emit a `NaN` percentage
and does not silently skip the sample. -/
theorem C3_all_zero_counts_divide_by_zero (ch : PyDict Nat) (row : Row)
    (hzero : ∀ ct ∈ CELL_TYPES, fieldInt ch row ct = Except.ok 0)
    (hsample : ∃ s, getField ch row SAMPLE_HEADER = Except.ok s) :
    convert_sample_cell_count ch row = Except.error "ZeroDivisionError: division by zero" := by
  have h1 := hzero "b_cell" (by decide)
  have h2 := hzero "cd8_t_cell" (by decide)
  have h3 := hzero "cd4_t_cell" (by decide)
  have h4 := hzero "nk_cell" (by decide)
  have h5 := hzero "monocyte" (by decide)
  rcases hsample with ⟨s, hs⟩
  have hcounts : exceptMapM (fieldInt ch row) CELL_TYPES =
      Except.ok [0, 0, 0, 0, 0] := by
    simp [CELL_TYPES] at h1 h2 h3 h4 h5 ⊢
    simp [exceptMapM, h1, h2, h3, h4, h5]
  rw [convert_sample_cell_count, hcounts]
  rw [exceptBind_ok]
  simp only [hs, exceptBind_ok]
  simp [CELL_TYPES, exceptMapM, get_output_csv_row]

/-- Witness for C3: the all-zero sample row. -/
theorem C3_all_zero_counts_divide_by_zero_witness :
    convert_sample_cell_count
      [("sample", 0), ("b_cell", 1), ("cd8_t_cell", 2), ("cd4_t_cell", 3),
       ("nk_cell", 4), ("monocyte", 5)]
      ["S1", "0", "0", "0", "0", "0"] =
      Except.error "ZeroDivisionError: division by zero" :=
  C3_all_zero_counts_divide_by_zero _ _
    (by intro ct hct; fin_cases hct <;> rfl) ⟨"S1", rfl⟩

/- ## Step lemmas for `calculate_responders` -/

theorem calculate_responders_step_skip (th rh : PyDict Nat) (rcsv : Csv)
    (st : Cohorts) (row : Row)
    (hrow :
      (∃ t, getField th row TREATMENT_HEADER = Except.ok t ∧ t ≠ TREATMENT) ∨
      (getField th row TREATMENT_HEADER = Except.ok TREATMENT ∧
        ∃ s, getField th row SAMPLE_TYPE_HEADER = Except.ok s ∧
          s ∉ INCLUDE_SAMPLE_TYPES)) :
    calculate_responders_step th rh rcsv st row = Except.ok st := by
  rcases hrow with ⟨t, ht, hne⟩ | ⟨ht, s, hs, hnot⟩
  · rw [calculate_responders_step, ht, exceptBind_ok]
    simp [hne, exceptPure]
  · rw [calculate_responders_step, ht, exceptBind_ok]
    simp only [if_pos rfl, hs, exceptBind_ok]
    simp [hnot, exceptPure]

/-- C5: a treatment row whose treatment field is not `tr1`, or whose
sample-type field is not in the allowed set (e.g. `sample_type = Tumor`),
contributes its percentages to neither cohort, regardless of its response
value: `calculate_responders` gives the same result with or without the row. -/
theorem C5_filtered_row_contributes_to_neither (th rh : PyDict Nat)
    (rcsv tcsv₁ tcsv₂ : Csv) (row : Row)
    (hrow :
      (∃ t, getField th row TREATMENT_HEADER = Except.ok t ∧ t ≠ TREATMENT) ∨
      (getField th row TREATMENT_HEADER = Except.ok TREATMENT ∧
        ∃ s, getField th row SAMPLE_TYPE_HEADER = Except.ok s ∧
          s ∉ INCLUDE_SAMPLE_TYPES)) :
    calculate_responders th (tcsv₁ ++ row :: tcsv₂) rh rcsv
      = calculate_responders th (tcsv₁ ++ tcsv₂) rh rcsv := by
  unfold calculate_responders
  rw [exceptFoldl_append, exceptFoldl_append]
  cases exceptFoldl (calculate_responders_step th rh rcsv) initCohorts tcsv₁ with
  | error e => rfl
  | ok st =>
      simp only []
      rw [show exceptFoldl (calculate_responders_step th rh rcsv) st (row :: tcsv₂)
          = exceptFoldl (calculate_responders_step th rh rcsv) st tcsv₂ from ?_]
      rw [exceptFoldl]
      rw [calculate_responders_step_skip th rh rcsv st row hrow]

/-- Witness for C5: a `Tumor` row (sample type not in the allowed set) is
excluded; the run with it equals the run without it. -/
theorem C5_filtered_row_contributes_to_neither_witness :
    calculate_responders
      [("sample", 0), ("treatment", 1), ("sample_type", 2), ("response", 3)]
      ([] ++ ["S2", "tr1", "Tumor", "y"] :: [])
      [("sample", 0), ("total_count", 1), ("population", 2), ("count", 3), ("percentage", 4)]
      [] =
    calculate_responders
      [("sample", 0), ("treatment", 1), ("sample_type", 2), ("response", 3)]
      ([] ++ [])
      [("sample", 0), ("total_count", 1), ("population", 2), ("count", 3), ("percentage", 4)]
      [] :=
  C5_filtered_row_contributes_to_neither _ _ _ [] [] ["S2", "tr1", "Tumor", "y"]
    (Or.inr ⟨rfl, "Tumor", rfl, by decide⟩)

/- ## Key preservation and C8 -/

theorem dictGet?_some_mem {α : Type} {d : PyDict α} {k : String} {v : α}
    (h : dictGet? d k = some v) : k ∈ d.map Prod.fst := by
  rw [← dictGet?_isSome_iff, h]
  rfl

theorem appendAll_keys {items : PyDict ℚ} :
    ∀ {c c' : PyDict (List ℚ)}, appendAll c items = Except.ok c' →
      c'.map Prod.fst = c.map Prod.fst := by
  unfold appendAll
  induction items with
  | nil =>
      intro c c' h
      rw [exceptFoldl] at h
      cases h
      rfl
  | cons p rest ih =>
      intro c c' h
      rw [exceptFoldl] at h
      cases hg : dictGet? c p.1 with
      | none => rw [hg] at h; exact Except.noConfusion h
      | some lst =>
          rw [hg] at h
          simp only [] at h
          have := ih h
          rw [this, dictSet_keys_of_mem _ _ (dictGet?_some_mem hg)]

theorem calculate_responders_step_keys {th rh : PyDict Nat} {rcsv : Csv}
    {st st' : Cohorts} {row : Row}
    (h : calculate_responders_step th rh rcsv st row = Except.ok st') :
    st'.1.map Prod.fst = st.1.map Prod.fst ∧ st'.2.map Prod.fst = st.2.map Prod.fst := by
  rw [calculate_responders_step] at h
  cases h1 : getField th row TREATMENT_HEADER with
  | error e => rw [h1, exceptBind_err] at h; exact Except.noConfusion h
  | ok t =>
      rw [h1, exceptBind_ok] at h
      by_cases ht : t = TREATMENT
      · rw [if_pos ht] at h
        cases h2 : getField th row SAMPLE_TYPE_HEADER with
        | error e => rw [h2, exceptBind_err] at h; exact Except.noConfusion h
        | ok sy =>
            rw [h2, exceptBind_ok] at h
            by_cases hsy : sy ∈ INCLUDE_SAMPLE_TYPES
            · rw [if_pos hsy] at h
              cases h3 : getField th row SAMPLE_HEADER with
              | error e => rw [h3, exceptBind_err] at h; exact Except.noConfusion h
              | ok sid =>
                  rw [h3, exceptBind_ok] at h
                  cases h4 : get_sample_relative rh rcsv sid with
                  | error e => rw [h4, exceptBind_err] at h; exact Except.noConfusion h
                  | ok d =>
                      rw [h4, exceptBind_ok] at h
                      cases h5 : getField th row RESPONSE_HEADER with
                      | error e => rw [h5, exceptBind_err] at h; exact Except.noConfusion h
                      | ok rv =>
                          rw [h5, exceptBind_ok] at h
                          by_cases hrv : rv = RESPONDING
                          · rw [if_pos hrv] at h
                            cases h6 : appendAll st.1 d with
                            | error e =>
                                rw [h6, exceptBind_err] at h
                                exact Except.noConfusion h
                            | ok r =>
                                rw [h6, exceptBind_ok, exceptPure] at h
                                cases h
                                exact ⟨appendAll_keys h6, rfl⟩
                          · rw [if_neg hrv] at h
                            cases h6 : appendAll st.2 d with
                            | error e =>
                                rw [h6, exceptBind_err] at h
                                exact Except.noConfusion h
                            | ok n =>
                                rw [h6, exceptBind_ok, exceptPure] at h
                                cases h
                                exact ⟨rfl, appendAll_keys h6⟩
            · rw [if_neg hsy, exceptPure] at h
              cases h
              exact ⟨rfl, rfl⟩
      · rw [if_neg ht, exceptPure] at h
        cases h
        exact ⟨rfl, rfl⟩

theorem calculate_responders_fold_keys {th rh : PyDict Nat} {rcsv : Csv} :
    ∀ {tcsv : Csv} {st₀ st : Cohorts},
      exceptFoldl (calculate_responders_step th rh rcsv) st₀ tcsv = Except.ok st →
      st.1.map Prod.fst = st₀.1.map Prod.fst ∧ st.2.map Prod.fst = st₀.2.map Prod.fst := by
  intro tcsv
  induction tcsv with
  | nil =>
      intro st₀ st h
      rw [exceptFoldl] at h
      cases h
      exact ⟨rfl, rfl⟩
  | cons row rest ih =>
      intro st₀ st h
      rw [exceptFoldl] at h
      cases h1 : calculate_responders_step th rh rcsv st₀ row with
      | error e => rw [h1] at h; exact Except.noConfusion h
      | ok st₁ =>
          rw [h1] at h
          have k1 := calculate_responders_step_keys h1
          have k2 := ih h
          exact ⟨k2.1.trans k1.1, k2.2.trans k1.2⟩

/-- C8: whenever `calculate_responders` returns (and, since the treatment CSV
is universally quantified, at every intermediate state of its accumulation
loop — the state after any prefix of rows is the result for that prefix),
each of the two returned mappings contains an entry — possibly an empty
list — for every cell type in the fixed five-element enumeration. -/
theorem C8_cohorts_cover_all_cell_types (th rh : PyDict Nat) (tcsv rcsv : Csv)
    (st : Cohorts)
    (h : calculate_responders th tcsv rh rcsv = Except.ok st) :
    ∀ ct ∈ CELL_TYPES, (dictGet? st.1 ct).isSome ∧ (dictGet? st.2 ct).isSome := by
  intro ct hct
  have hkeys := @calculate_responders_fold_keys th rh rcsv tcsv initCohorts st h
  have hinit1 : initCohorts.1.map Prod.fst = CELL_TYPES := by decide
  have hinit2 : initCohorts.2.map Prod.fst = CELL_TYPES := by decide
  constructor
  · rw [dictGet?_isSome_iff, hkeys.1, hinit1]
    exact hct
  · rw [dictGet?_isSome_iff, hkeys.2, hinit2]
    exact hct

/-- Witness for C8: with no treatment rows at all, both returned mappings
still contain an entry for `b_cell`. -/
theorem C8_cohorts_cover_all_cell_types_witness :
    (dictGet? initCohorts.1 "b_cell").isSome ∧ (dictGet? initCohorts.2 "b_cell").isSome :=
  C8_cohorts_cover_all_cell_types [] [] [] [] initCohorts rfl "b_cell" (by decide)

/- ## C10: sample absent from the relative-count table -/

theorem get_sample_relative_no_match (rh : PyDict Nat) (sample_id : String) :
    ∀ (rcsv : Csv),
      (∀ row ∈ rcsv, ∃ sv, getField rh row SAMPLE_HEADER = Except.ok sv ∧ sv ≠ sample_id) →
      ∀ d, exceptFoldl (get_sample_relative_step rh sample_id) d rcsv = Except.ok d := by
  intro rcsv
  induction rcsv with
  | nil => intro _ d; rfl
  | cons row rest ih =>
      intro habs d
      rcases habs row (List.mem_cons_self row rest) with ⟨sv, hsv, hne⟩
      rw [exceptFoldl]
      rw [show get_sample_relative_step rh sample_id d row = Except.ok d from ?_]
      · exact ih (fun r hr => habs r (List.mem_cons_of_mem row hr)) d
      · rw [get_sample_relative_step, hsv, exceptBind_ok]
        simp [hne, exceptPure]

/-- C10: a sample id that appears in no row of the relative-count table makes
`get_sample_relative` return an empty mapping without error; consequently a
treatment row that passes the treatment/sample-type filter but has that
sample id contributes zero percentage entries to either cohort, silently
(the accumulator state is unchanged). -/
theorem C10_missing_sample_contributes_silently_nothing (rh : PyDict Nat)
    (rcsv : Csv) (sample_id : String)
    (habs : ∀ row ∈ rcsv, ∃ sv, getField rh row SAMPLE_HEADER = Except.ok sv ∧
      sv ≠ sample_id) :
    get_sample_relative rh rcsv sample_id = Except.ok [] ∧
    ∀ (th : PyDict Nat) (st : Cohorts) (row : Row),
      getField th row TREATMENT_HEADER = Except.ok TREATMENT →
      (∃ s, getField th row SAMPLE_TYPE_HEADER = Except.ok s ∧ s ∈ INCLUDE_SAMPLE_TYPES) →
      getField th row SAMPLE_HEADER = Except.ok sample_id →
      (∃ rv, getField th row RESPONSE_HEADER = Except.ok rv) →
      calculate_responders_step th rh rcsv st row = Except.ok st := by
  have hempty : get_sample_relative rh rcsv sample_id = Except.ok [] :=
    get_sample_relative_no_match rh sample_id rcsv habs []
  refine ⟨hempty, ?_⟩
  rintro th st row ht ⟨s, hs, hmem⟩ hsid ⟨rv, hrv⟩
  rw [calculate_responders_step, ht, exceptBind_ok, if_pos rfl, hs, exceptBind_ok,
    if_pos hmem, hsid, exceptBind_ok, hempty, exceptBind_ok, hrv, exceptBind_ok]
  by_cases h : rv = RESPONDING
  · rw [if_pos h]
    show (Except.ok st.1 >>= fun r => pure (r, st.2)) = Except.ok st
    rw [exceptBind_ok, exceptPure]
  · rw [if_neg h]
    show (Except.ok st.2 >>= fun n => pure (st.1, n)) = Except.ok st
    rw [exceptBind_ok, exceptPure]

/-- Witness for C10: sample `S9` has no relative-count rows; its qualifying
treatment row leaves the accumulators unchanged. -/
theorem C10_missing_sample_contributes_silently_nothing_witness :
    get_sample_relative
      [("sample", 0), ("total_count", 1), ("population", 2), ("count", 3), ("percentage", 4)]
      [["S1", "100", "b_cell", "10", "10.00"]] "S9" = Except.ok [] ∧
    calculate_responders_step
      [("sample", 0), ("treatment", 1), ("sample_type", 2), ("response", 3)]
      [("sample", 0), ("total_count", 1), ("population", 2), ("count", 3), ("percentage", 4)]
      [["S1", "100", "b_cell", "10", "10.00"]]
      initCohorts ["S9", "tr1", "PBMC", "y"] = Except.ok initCohorts := by
  have habs : ∀ row ∈ ([["S1", "100", "b_cell", "10", "10.00"]] : Csv),
      ∃ sv, getField
        [("sample", 0), ("total_count", 1), ("population", 2), ("count", 3), ("percentage", 4)]
        row SAMPLE_HEADER = Except.ok sv ∧ sv ≠ "S9" := by
    intro row hr
    rcases List.mem_singleton.1 hr with rfl
    exact ⟨"S1", rfl, by decide⟩
  have h := C10_missing_sample_contributes_silently_nothing
    [("sample", 0), ("total_count", 1), ("population", 2), ("count", 3), ("percentage", 4)]
    [["S1", "100", "b_cell", "10", "10.00"]] "S9" habs
  exact ⟨h.1, h.2 [("sample", 0), ("treatment", 1), ("sample_type", 2), ("response", 3)]
    initCohorts ["S9", "tr1", "PBMC", "y"] rfl ⟨"PBMC", rfl, by decide⟩ rfl ⟨"y", rfl⟩⟩

/- ## C7: output ordering of the converter -/

theorem forall₂_ok_mem {α β : Type} {P : α → β → Prop} :
    ∀ {l : List α} {b : List β}, List.Forall₂ P l b → ∀ x ∈ b, ∃ a, P a x := by
  intro l b h
  induction h with
  | nil => intro x hx; simp at hx
  | cons hp _ ih =>
      intro x hx
      rcases List.mem_cons.1 hx with rfl | hx'
      · exact ⟨_, hp⟩
      · exact ih x hx'

theorem forall₂_row_populations {s : String} {T : ℤ} :
    ∀ {l : List (String × ℤ)} {b : Csv},
      List.Forall₂ (fun p r => get_output_csv_row s T p.1 p.2 = Except.ok r) l b →
      b.map (fun r => r[2]?) = l.map (fun p => some p.1) := by
  intro l
  induction l with
  | nil =>
      intro b h
      cases h
      rfl
  | cons p l' ih =>
      intro b h
      cases h with
      | cons hp ht =>
          rw [get_output_csv_row] at hp
          by_cases hT : T = 0
          · rw [if_pos hT] at hp
            exact Except.noConfusion hp
          · rw [if_neg hT] at hp
            have hb := (Except.ok.inj hp).symm
            subst hb
            simp only [List.map_cons, ih ht]
            rfl

theorem convert_sample_populations {ch : PyDict Nat} {row : Row} {b : Csv}
    (h : convert_sample_cell_count ch row = Except.ok b) :
    b.map (fun r => r[2]?) = CELL_TYPES.map some := by
  rw [convert_sample_cell_count] at h
  cases hc : exceptMapM (fieldInt ch row) CELL_TYPES with
  | error e => rw [hc, exceptBind_err] at h; exact Except.noConfusion h
  | ok counts =>
      rw [hc, exceptBind_ok] at h
      cases hsf : getField ch row SAMPLE_HEADER with
      | error e => rw [hsf, exceptBind_err] at h; exact Except.noConfusion h
      | ok s =>
          rw [hsf, exceptBind_ok] at h
          have hf := exceptMapM_ok_forall₂ h
          have hlen : CELL_TYPES.length = counts.length :=
            (exceptMapM_ok_forall₂ hc).length_eq
          rw [forall₂_row_populations hf]
          rw [show (CELL_TYPES.zip counts).map (fun p => some p.1)
              = ((CELL_TYPES.zip counts).map Prod.fst).map some by
            simp [Function.comp]]
          rw [List.map_fst_zip _ _ (le_of_eq hlen)]

/-- C7: the records emitted by `convert_cell_count` are the output header row
followed by one block per input row, in input row order, and within each
block the population column runs through the fixed cell-type enumeration
order (`b_cell`, `cd8_t_cell`, `cd4_t_cell`, `nk_cell`, `monocyte`); in
particular, for the input row `(sample=S1, b_cell=10, cd8_t_cell=20,
cd4_t_cell=30, nk_cell=20, monocyte=20)` the total is `100` and the emitted
block contains the records `(S1, 100, b_cell, 10, "10.00")` and
`(S1, 100, cd4_t_cell, 30, "30.00")` at their enumeration positions. -/
theorem C7_output_ordering_and_example :
    (∀ (ch : PyDict Nat) (rows : Csv) (blocks : List Csv),
        exceptMapM (convert_sample_cell_count ch) rows = Except.ok blocks →
        convert_cell_count ch rows = Except.ok (OUTPUT_HEADERS :: blocks.flatten) ∧
        ∀ b ∈ blocks, b.map (fun r => r[2]?) = CELL_TYPES.map some) ∧
    convert_sample_cell_count
      [("sample", 0), ("b_cell", 1), ("cd8_t_cell", 2), ("cd4_t_cell", 3),
       ("nk_cell", 4), ("monocyte", 5)]
      ["S1", "10", "20", "30", "20", "20"] =
      Except.ok
        [["S1", "100", "b_cell", "10", "10.00"],
         ["S1", "100", "cd8_t_cell", "20", "20.00"],
         ["S1", "100", "cd4_t_cell", "30", "30.00"],
         ["S1", "100", "nk_cell", "20", "20.00"],
         ["S1", "100", "monocyte", "20", "20.00"]] := by
  constructor
  · intro ch rows blocks hmap
    constructor
    · rw [convert_cell_count, hmap, exceptBind_ok, exceptPure]
    · intro b hb
      rcases forall₂_ok_mem (exceptMapM_ok_forall₂ hmap) b hb with ⟨row, hrow⟩
      exact convert_sample_populations hrow
  · rfl

/-- Witness for C7 at the example row. -/
theorem C7_output_ordering_and_example_witness :
    convert_cell_count
      [("sample", 0), ("b_cell", 1), ("cd8_t_cell", 2), ("cd4_t_cell", 3),
       ("nk_cell", 4), ("monocyte", 5)]
      [["S1", "10", "20", "30", "20", "20"]] =
      Except.ok (OUTPUT_HEADERS ::
        ([[["S1", "100", "b_cell", "10", "10.00"],
           ["S1", "100", "cd8_t_cell", "20", "20.00"],
           ["S1", "100", "cd4_t_cell", "30", "30.00"],
           ["S1", "100", "nk_cell", "20", "20.00"],
           ["S1", "100", "monocyte", "20", "20.00"]]] : List Csv).flatten) ∧
    ([["S1", "100", "b_cell", "10", "10.00"],
      ["S1", "100", "cd8_t_cell", "20", "20.00"],
      ["S1", "100", "cd4_t_cell", "30", "30.00"],
      ["S1", "100", "nk_cell", "20", "20.00"],
      ["S1", "100", "monocyte", "20", "20.00"]] : Csv).map (fun r => r[2]?)
      = CELL_TYPES.map some := by
  have h := C7_output_ordering_and_example.1
    [("sample", 0), ("b_cell", 1), ("cd8_t_cell", 2), ("cd4_t_cell", 3),
     ("nk_cell", 4), ("monocyte", 5)]
    [["S1", "10", "20", "30", "20", "20"]]
    [[["S1", "100", "b_cell", "10", "10.00"],
      ["S1", "100", "cd8_t_cell", "20", "20.00"],
      ["S1", "100", "cd4_t_cell", "30", "30.00"],
      ["S1", "100", "nk_cell", "20", "20.00"],
      ["S1", "100", "monocyte", "20", "20.00"]]]
    (by rfl)
  exact ⟨h.1, h.2 _ (List.mem_singleton.2 rfl)⟩

/- ## Digit and rendering lemmas -/

theorem valMSB_append_singleton (l : List Nat) (d : Nat) :
    valMSB (l ++ [d]) = 10 * valMSB l + d := by
  simp [valMSB, List.foldl_append]

theorem natToRevDigitsAux_spec :
    ∀ fuel n, n ≤ fuel →
      valMSB ((natToRevDigitsAux fuel n).reverse) = n ∧
      ∀ d ∈ natToRevDigitsAux fuel n, d < 10 := by
  intro fuel
  induction fuel with
  | zero =>
      intro n hn
      have hn0 : n = 0 := Nat.le_zero.1 hn
      subst hn0
      exact ⟨rfl, by simp [natToRevDigitsAux]⟩
  | succ fuel ih =>
      intro n hn
      cases n with
      | zero => exact ⟨rfl, by simp [natToRevDigitsAux]⟩
      | succ m =>
          have hdiv : (m + 1) / 10 ≤ fuel := by
            have := Nat.div_lt_self (Nat.succ_pos m) (by omega : 1 < 10)
            omega
          rcases ih ((m + 1) / 10) hdiv with ⟨ih1, ih2⟩
          constructor
          · simp only [natToRevDigitsAux, List.reverse_cons, valMSB_append_singleton, ih1]
            omega
          · intro d hd
            simp only [natToRevDigitsAux] at hd
            rcases List.mem_cons.1 hd with rfl | hd'
            · exact Nat.mod_lt _ (by omega)
            · exact ih2 d hd'

theorem charVal_digitChar {d : Nat} (hd : d < 10) : charVal (digitChar d) = d := by
  interval_cases d <;> rfl

theorem digitChar_isDigit {d : Nat} (hd : d < 10) : (digitChar d).isDigit = true := by
  interval_cases d <;> rfl

theorem natRepr_toList (n : Nat) :
    (natRepr n).toList
      = if n = 0 then ['0'] else ((natToRevDigits n).map digitChar).reverse := rfl

theorem natRepr_all_digit (n : Nat) : ∀ c ∈ (natRepr n).toList, c.isDigit = true := by
  rw [natRepr_toList]
  by_cases h : n = 0
  · rw [if_pos h]
    intro c hc
    rcases List.mem_singleton.1 hc with rfl
    decide
  · rw [if_neg h]
    intro c hc
    rw [List.mem_reverse] at hc
    rcases List.mem_map.1 hc with ⟨d, hd, rfl⟩
    exact digitChar_isDigit ((natToRevDigitsAux_spec n n le_rfl).2 d hd)

theorem digitsVal_natRepr (n : Nat) : digitsVal (natRepr n).toList = n := by
  rw [natRepr_toList]
  by_cases h : n = 0
  · rw [if_pos h, h]
    rfl
  · rw [if_neg h, digitsVal, ← List.map_reverse, List.map_map]
    have hmap : (natToRevDigits n).reverse.map (charVal ∘ digitChar)
        = (natToRevDigits n).reverse.map id := by
      apply List.map_congr_left
      intro d hd
      show charVal (digitChar d) = d
      exact charVal_digitChar
        ((natToRevDigitsAux_spec n n le_rfl).2 d (List.mem_reverse.1 hd))
    rw [hmap, List.map_id]
    exact (natToRevDigitsAux_spec n n le_rfl).1

theorem natRepr_toList_ne_nil (n : Nat) : (natRepr n).toList ≠ [] := by
  rw [natRepr_toList]
  by_cases h : n = 0
  · rw [if_pos h]
    simp
  · rw [if_neg h]
    cases n with
    | zero => exact absurd rfl h
    | succ m => simp [natToRevDigits, natToRevDigitsAux]

theorem notDot_eq_true {c : Char} (h : c ≠ '.') : notDot c = true := by
  simp [notDot, h]

theorem notDot_dot_eq_false : notDot '.' = false := by
  simp [notDot]

theorem takeWhile_dot_split (l₂ : List Char) :
    ∀ l₁ : List Char, (∀ c ∈ l₁, c ≠ '.') →
      (l₁ ++ '.' :: l₂).takeWhile notDot = l₁ ∧
      (l₁ ++ '.' :: l₂).dropWhile notDot = '.' :: l₂ := by
  intro l₁
  induction l₁ with
  | nil =>
      intro _
      constructor
      · exact List.takeWhile_cons_of_neg (by simp [notDot_dot_eq_false])
      · exact List.dropWhile_cons_of_neg (by simp [notDot_dot_eq_false])
  | cons c rest ih =>
      intro hall
      have hc : notDot c = true := notDot_eq_true (hall c (List.mem_cons_self c rest))
      have hrest := ih (fun x hx => hall x (List.mem_cons_of_mem c hx))
      constructor
      · rw [List.cons_append, List.takeWhile_cons_of_pos hc, hrest.1]
      · rw [List.cons_append, List.dropWhile_cons_of_pos hc, hrest.2]

theorem isDigit_ne_dot {c : Char} (h : c.isDigit = true) : c ≠ '.' := by
  intro hEq
  rw [hEq] at h
  exact absurd h (by decide)

theorem parseUnsignedDecimal_formatNat (n : Nat) :
    parseUnsignedDecimal (formatNatHundredths n).toList = some ((n : ℚ) / 100) := by
  have hd1 : n % 100 / 10 < 10 := by omega
  have hd2 : n % 100 % 10 < 10 := by omega
  have hip : ∀ c ∈ (natRepr (n / 100)).toList, c ≠ '.' :=
    fun c hc => isDigit_ne_dot (natRepr_all_digit _ c hc)
  have hlist : (formatNatHundredths n).toList
      = (natRepr (n / 100)).toList
        ++ '.' :: [digitChar (n % 100 / 10), digitChar (n % 100 % 10)] := rfl
  have hsplit := takeWhile_dot_split
    [digitChar (n % 100 / 10), digitChar (n % 100 % 10)] (natRepr (n / 100)).toList hip
  rw [hlist, parseUnsignedDecimal]
  simp only [hsplit.1, hsplit.2]
  rw [if_pos ?hcond]
  case hcond =>
    refine ⟨?_, ?_, Or.inl (natRepr_toList_ne_nil _)⟩
    · rw [List.all_eq_true]
      exact fun c hc => natRepr_all_digit _ c hc
    · rw [List.all_eq_true]
      intro c hc
      rcases List.mem_cons.1 hc with rfl | hc'
      · exact digitChar_isDigit hd1
      · rcases List.mem_singleton.1 hc' with rfl
        exact digitChar_isDigit hd2
  have hfp : digitsVal [digitChar (n % 100 / 10), digitChar (n % 100 % 10)] = n % 100 := by
    rw [digitsVal]
    simp only [List.map_cons, List.map_nil, charVal_digitChar hd1, charVal_digitChar hd2]
    show 10 * (10 * 0 + n % 100 / 10) + n % 100 % 10 = n % 100
    omega
  rw [digitsVal_natRepr, hfp, Rat.mkRat_eq_div]
  have hlen2 : [digitChar (n % 100 / 10), digitChar (n % 100 % 10)].length = 2 := rfl
  rw [hlen2]
  have hnum : ((n / 100 : ℕ) : ℤ) * 10 ^ 2 + ((n % 100 : ℕ) : ℤ) = (n : ℤ) := by
    push_cast
    omega
  rw [hnum]
  push_cast
  norm_num

theorem isDigit_ne_minus {c : Char} (h : c.isDigit = true) : c ≠ '-' := by
  intro hEq
  rw [hEq] at h
  exact absurd h (by decide)

theorem isDigit_ne_plus {c : Char} (h : c.isDigit = true) : c ≠ '+' := by
  intro hEq
  rw [hEq] at h
  exact absurd h (by decide)

theorem parseDecimal_formatHundredths {h : ℤ} (hh : 0 ≤ h) :
    parseDecimal (formatHundredths h) = some ((h : ℚ) / 100) := by
  rw [formatHundredths, if_neg (by omega : ¬ h < 0)]
  obtain ⟨d, ds, hnl⟩ : ∃ d ds, (natRepr (h.toNat / 100)).toList = d :: ds := by
    cases hnl : (natRepr (h.toNat / 100)).toList with
    | nil => exact absurd hnl (natRepr_toList_ne_nil _)
    | cons d ds => exact ⟨d, ds, rfl⟩
  have hd : d.isDigit = true := natRepr_all_digit _ d (by
    rw [hnl]; exact List.mem_cons_self d ds)
  have hlist : (formatNatHundredths h.toNat).toList
      = d :: (ds ++ '.' ::
          [digitChar (h.toNat % 100 / 10), digitChar (h.toNat % 100 % 10)]) := by
    show (natRepr (h.toNat / 100)).toList
        ++ '.' :: [digitChar (h.toNat % 100 / 10), digitChar (h.toNat % 100 % 10)] = _
    rw [hnl, List.cons_append]
  rw [parseDecimal, hlist]
  simp only [if_neg (isDigit_ne_minus hd), if_neg (isDigit_ne_plus hd)]
  rw [← List.cons_append, ← hnl]
  rw [show (natRepr (h.toNat / 100)).toList
      ++ '.' :: [digitChar (h.toNat % 100 / 10), digitChar (h.toNat % 100 % 10)]
      = (formatNatHundredths h.toNat).toList from rfl]
  rw [parseUnsignedDecimal_formatNat]
  have hcast : ((h.toNat : ℕ) : ℚ) = (h : ℚ) := by
    exact_mod_cast congrArg (Int.cast : ℤ → ℚ) (Int.toNat_of_nonneg hh)
  rw [hcast]

/- ## Rounding bound -/

theorem roundHalfEvenFrac_nonneg {a b : ℤ} (ha : 0 ≤ a) (hb : 0 < b) :
    0 ≤ roundHalfEvenFrac a b := by
  rw [roundHalfEvenFrac]
  simp only [if_neg (by omega : ¬ b < 0)]
  have hn : 0 ≤ Int.ediv a b := Int.ediv_nonneg ha (le_of_lt hb)
  split_ifs <;> omega

theorem abs_roundHalfEvenFrac_sub {a b : ℤ} (hb : 0 < b) :
    |(roundHalfEvenFrac a b : ℚ) - (a : ℚ) / (b : ℚ)| ≤ 1 / 2 := by
  have hbne : b ≠ 0 := ne_of_gt hb
  have hbq : (b : ℚ) ≠ 0 := by exact_mod_cast hbne
  have hbqpos : (0 : ℚ) < (b : ℚ) := by exact_mod_cast hb
  have hr0 : (0 : ℤ) ≤ a % b := Int.emod_nonneg a hbne
  have hrb : a % b < b := Int.emod_lt_of_pos a hb
  have hsum : b * (a / b) + a % b = a := Int.ediv_add_emod a b
  have hq : (a : ℚ) / b = ((a / b : ℤ) : ℚ) + ((a % b : ℤ) : ℚ) / b := by
    have hcast : (a : ℚ) = (b : ℚ) * ((a / b : ℤ) : ℚ) + ((a % b : ℤ) : ℚ) := by
      exact_mod_cast congrArg (Int.cast : ℤ → ℚ) hsum.symm
    rw [hcast]
    field_simp
    ring
  have hrq0 : (0 : ℚ) ≤ ((a % b : ℤ) : ℚ) := by exact_mod_cast hr0
  have hrqb : ((a % b : ℤ) : ℚ) < (b : ℚ) := by exact_mod_cast hrb
  rw [roundHalfEvenFrac]
  simp only [if_neg (by omega : ¬ b < 0)]
  rw [show Int.ediv a b = a / b from rfl, show Int.emod a b = a % b from rfl]
  rw [hq]
  split_ifs with h1 h2 h3
  · -- 2r < b: round down
    have h1q : 2 * ((a % b : ℤ) : ℚ) < (b : ℚ) := by exact_mod_cast h1
    rw [show ((a / b : ℤ) : ℚ) - (((a / b : ℤ) : ℚ) + ((a % b : ℤ) : ℚ) / b)
        = -(((a % b : ℤ) : ℚ) / b) by ring, abs_neg,
      abs_of_nonneg (div_nonneg hrq0 (le_of_lt hbqpos))]
    rw [div_le_iff hbqpos]
    linarith
  · -- b < 2r: round up
    have h2q : (b : ℚ) < 2 * ((a % b : ℤ) : ℚ) := by exact_mod_cast h2
    have hlt1 : ((a % b : ℤ) : ℚ) / b < 1 := (div_lt_one hbqpos).2 hrqb
    rw [show (((a / b : ℤ) + 1 : ℤ) : ℚ) - (((a / b : ℤ) : ℚ) + ((a % b : ℤ) : ℚ) / b)
        = 1 - ((a % b : ℤ) : ℚ) / b by push_cast; ring]
    rw [abs_of_nonneg (by linarith)]
    have hineq : (1 : ℚ) / 2 ≤ ((a % b : ℤ) : ℚ) / b := by
      rw [div_le_div_iff (by norm_num) hbqpos]
      linarith
    linarith
  · -- tie, even: round down
    have heq : 2 * ((a % b : ℤ) : ℚ) = (b : ℚ) := by
      have : 2 * (a % b) = b := by omega
      exact_mod_cast congrArg (Int.cast : ℤ → ℚ) this
    have hhalf : ((a % b : ℤ) : ℚ) / b = 1 / 2 := by
      rw [div_eq_iff hbq]
      linarith
    rw [show ((a / b : ℤ) : ℚ) - (((a / b : ℤ) : ℚ) + ((a % b : ℤ) : ℚ) / b)
        = -(((a % b : ℤ) : ℚ) / b) by ring, abs_neg, hhalf]
    rw [abs_of_nonneg (by norm_num)]
  · -- tie, odd: round up
    have heq : 2 * ((a % b : ℤ) : ℚ) = (b : ℚ) := by
      have : 2 * (a % b) = b := by omega
      exact_mod_cast congrArg (Int.cast : ℤ → ℚ) this
    have hhalf : ((a % b : ℤ) : ℚ) / b = 1 / 2 := by
      rw [div_eq_iff hbq]
      linarith
    rw [show (((a / b : ℤ) + 1 : ℤ) : ℚ) - (((a / b : ℤ) : ℚ) + ((a % b : ℤ) : ℚ) / b)
        = 1 - ((a % b : ℤ) : ℚ) / b by push_cast; ring, hhalf]
    rw [abs_of_nonneg (by norm_num)]
    norm_num

/- ## List summation helpers -/

theorem list_sum_sub_map {α : Type} (f g : α → ℚ) :
    ∀ l : List α, (l.map f).sum - (l.map g).sum = (l.map (fun x => f x - g x)).sum := by
  intro l
  induction l with
  | nil => simp
  | cons a t ih =>
      simp only [List.map_cons, List.sum_cons]
      rw [← ih]
      ring

theorem list_abs_sum_le :
    ∀ l : List ℚ, |l.sum| ≤ (l.map (fun x => |x|)).sum := by
  intro l
  induction l with
  | nil => simp
  | cons a t ih =>
      simp only [List.map_cons, List.sum_cons]
      calc |a + t.sum| ≤ |a| + |t.sum| := abs_add _ _
        _ ≤ |a| + (t.map (fun x => |x|)).sum := by linarith

theorem list_sum_le_length_mul (B : ℚ) :
    ∀ l : List ℚ, (∀ x ∈ l, x ≤ B) → l.sum ≤ l.length * B := by
  intro l
  induction l with
  | nil => intro _; simp
  | cons a t ih =>
      intro h
      have ha := h a (List.mem_cons_self a t)
      have ht := ih (fun x hx => h x (List.mem_cons_of_mem a hx))
      simp only [List.sum_cons, List.length_cons]
      push_cast
      linarith

/- ## C2: the emitted percentages and their sum -/

theorem optMapM_readPct (s : String) (T : ℤ) (hT : 0 < T) :
    ∀ (l : List (String × ℤ)) (b : Csv),
      List.Forall₂ (fun p r => get_output_csv_row s T p.1 p.2 = Except.ok r) l b →
      (∀ p ∈ l, 0 ≤ p.2) →
      optMapM readPct b
        = some (l.map (fun p => ((pctHundredths p.2 T : ℤ) : ℚ) / 100)) := by
  intro l
  induction l with
  | nil =>
      intro b hf _
      cases hf
      rfl
  | cons p t ih =>
      intro b hf hnn
      cases hf with
      | cons hp ht =>
          rw [get_output_csv_row, if_neg (by omega : ¬ T = 0)] at hp
          have hb := (Except.ok.inj hp).symm
          subst hb
          have hpct0 : 0 ≤ pctHundredths p.2 T :=
            roundHalfEvenFrac_nonneg
              (mul_nonneg (hnn p (List.mem_cons_self p t)) (by norm_num)) hT
          have hread : readPct [s, intRepr T, p.1, intRepr p.2,
              formatHundredths (pctHundredths p.2 T)]
              = some (((pctHundredths p.2 T : ℤ) : ℚ) / 100) := by
            show (some (formatHundredths (pctHundredths p.2 T))).bind parseDecimal = _
            rw [Option.some_bind]
            exact parseDecimal_formatHundredths hpct0
          rw [optMapM, hread, ih _ ht (fun q hq => hnn q (List.mem_cons_of_mem p hq))]
          rfl

/-- C2 (counterexample to the claimed ±0.01 tolerance): for the sample row
with counts (1, 1, 1, 1, 3), total 7, the five emitted percentage strings are
"14.29" ×4 and "42.86"; they read back to a sum of 100.02, which is NOT
within ±0.01 of 100. -/
theorem C2_percentage_sum_tolerance_counterexample :
    convert_sample_cell_count
      [("sample", 0), ("b_cell", 1), ("cd8_t_cell", 2), ("cd4_t_cell", 3),
       ("nk_cell", 4), ("monocyte", 5)]
      ["S1", "1", "1", "1", "1", "3"] =
      Except.ok
        [["S1", "7", "b_cell", "1", "14.29"],
         ["S1", "7", "cd8_t_cell", "1", "14.29"],
         ["S1", "7", "cd4_t_cell", "1", "14.29"],
         ["S1", "7", "nk_cell", "1", "14.29"],
         ["S1", "7", "monocyte", "3", "42.86"]] ∧
    readbackSum
      [["S1", "7", "b_cell", "1", "14.29"],
       ["S1", "7", "cd8_t_cell", "1", "14.29"],
       ["S1", "7", "cd4_t_cell", "1", "14.29"],
       ["S1", "7", "nk_cell", "1", "14.29"],
       ["S1", "7", "monocyte", "3", "42.86"]] = some (5001 / 50) ∧
    ¬ (|(5001 : ℚ) / 50 - 100| ≤ 1 / 100) := by
  refine ⟨rfl, ?_, ?_⟩
  · have hopt : optMapM readPct
        [["S1", "7", "b_cell", "1", "14.29"],
         ["S1", "7", "cd8_t_cell", "1", "14.29"],
         ["S1", "7", "cd4_t_cell", "1", "14.29"],
         ["S1", "7", "nk_cell", "1", "14.29"],
         ["S1", "7", "monocyte", "3", "42.86"]]
        = some [mkRat 1429 100, mkRat 1429 100, mkRat 1429 100, mkRat 1429 100,
            mkRat 4286 100] := rfl
    rw [readbackSum, hopt]
    show some (List.sum [mkRat 1429 100, mkRat 1429 100, mkRat 1429 100, mkRat 1429 100,
        mkRat 4286 100]) = some (5001 / 50)
    congr 1
    simp only [List.sum_cons, List.sum_nil, Rat.mkRat_eq_div]
    norm_num
  · rw [abs_of_nonneg (by norm_num : (0 : ℚ) ≤ 5001 / 50 - 100)]
    norm_num

/-- C2 (amended): for every sample row whose five cell-type fields parse as
non-negative integers with a positive sum, the five percentage strings
emitted by `convert_sample_cell_count`, read back as decimal numbers, sum to
100.00 within ±0.025 (five two-decimal roundings of at most 0.005 each; the
originally claimed ±0.01 is too tight, see the counterexample). -/
theorem C2_amended_percentage_sum_within_tolerance
    (ch : PyDict Nat) (row : Row) (counts : List ℤ) (out : Csv)
    (hc : exceptMapM (fieldInt ch row) CELL_TYPES = Except.ok counts)
    (hnn : ∀ c ∈ counts, 0 ≤ c) (hpos : 0 < counts.sum)
    (hout : convert_sample_cell_count ch row = Except.ok out) :
    ∃ S, readbackSum out = some S ∧ |S - 100| ≤ 1 / 40 := by
  rw [convert_sample_cell_count, hc, exceptBind_ok] at hout
  cases hsf : getField ch row SAMPLE_HEADER with
  | error e => rw [hsf, exceptBind_err] at hout; exact Except.noConfusion hout
  | ok s =>
      rw [hsf, exceptBind_ok] at hout
      have hf := exceptMapM_ok_forall₂ hout
      have hlen : CELL_TYPES.length = counts.length := (exceptMapM_ok_forall₂ hc).length_eq
      have hzip_nn : ∀ p ∈ CELL_TYPES.zip counts, 0 ≤ p.2 := by
        rintro ⟨x, c⟩ hp
        exact hnn c (List.of_mem_zip hp).2
      have hopt := optMapM_readPct s counts.sum hpos (CELL_TYPES.zip counts) out hf hzip_nn
      refine ⟨((CELL_TYPES.zip counts).map
        (fun p => ((pctHundredths p.2 counts.sum : ℤ) : ℚ) / 100)).sum, ?_, ?_⟩
      · rw [readbackSum, hopt]
        rfl
      · have hsnd : (CELL_TYPES.zip counts).map Prod.snd = counts :=
          List.map_snd_zip _ _ (le_of_eq hlen.symm)
        have hmapf : (CELL_TYPES.zip counts).map
              (fun p => ((pctHundredths p.2 counts.sum : ℤ) : ℚ) / 100)
            = counts.map (fun c => ((pctHundredths c counts.sum : ℤ) : ℚ) / 100) := by
          calc (CELL_TYPES.zip counts).map
                (fun p => ((pctHundredths p.2 counts.sum : ℤ) : ℚ) / 100)
              = ((CELL_TYPES.zip counts).map Prod.snd).map
                  (fun c => ((pctHundredths c counts.sum : ℤ) : ℚ) / 100) := by
                rw [List.map_map]
                rfl
            _ = counts.map (fun c => ((pctHundredths c counts.sum : ℤ) : ℚ) / 100) := by
                rw [hsnd]
        rw [hmapf]
        have hTq : ((counts.sum : ℤ) : ℚ) ≠ 0 := by
          have : (0 : ℤ) < counts.sum := hpos
          exact_mod_cast ne_of_gt this
        have h100 : (counts.map (fun c => ((c : ℤ) : ℚ) * 100 / ((counts.sum : ℤ) : ℚ))).sum
            = 100 := by
          have hrw : (counts.map (fun c => ((c : ℤ) : ℚ) * 100 / ((counts.sum : ℤ) : ℚ))).sum
              = (counts.map (fun c => (100 / ((counts.sum : ℤ) : ℚ)) * ((c : ℤ) : ℚ))).sum := by
            congr 1
            apply List.map_congr_left
            intro c _
            ring
          rw [hrw, List.sum_map_mul_left, ← Int.cast_list_sum]
          exact div_mul_cancel₀ 100 hTq
        nth_rewrite 2 [← h100]
        rw [list_sum_sub_map]
        set F := fun c : ℤ => ((pctHundredths c counts.sum : ℤ) : ℚ) / 100
            - ((c : ℤ) : ℚ) * 100 / ((counts.sum : ℤ) : ℚ) with hF
        have hbound : ∀ x ∈ (counts.map F).map (fun x => |x|), x ≤ 1 / 200 := by
          intro x hx
          rcases List.mem_map.1 hx with ⟨y, hy, rfl⟩
          rcases List.mem_map.1 hy with ⟨c, _, rfl⟩
          have hper := @abs_roundHalfEvenFrac_sub (c * 10000) counts.sum hpos
          have hrw2 : F c
              = (((roundHalfEvenFrac (c * 10000) counts.sum : ℤ) : ℚ)
                - ((c * 10000 : ℤ) : ℚ) / ((counts.sum : ℤ) : ℚ)) / 100 := by
            rw [hF]
            show ((pctHundredths c counts.sum : ℤ) : ℚ) / 100
                - ((c : ℤ) : ℚ) * 100 / ((counts.sum : ℤ) : ℚ) = _
            rw [pctHundredths]
            push_cast
            field_simp
            ring
          rw [hrw2, abs_div, abs_of_nonneg (by norm_num : (0 : ℚ) ≤ 100)]
          rw [div_le_div_iff (by norm_num) (by norm_num)]
          linarith
        have h1 := list_abs_sum_le (counts.map F)
        have h2 := list_sum_le_length_mul (1 / 200) ((counts.map F).map (fun x => |x|)) hbound
        have hlen5 : (((counts.map F).map (fun x => |x|)).length : ℚ) = 5 := by
          simp only [List.length_map]
          have hc5 : counts.length = 5 := by
            rw [← hlen]
            rfl
          rw [hc5]
          norm_num
        rw [hlen5] at h2
        have hsum_le : ((counts.map F).map (fun x => |x|)).sum ≤ 1 / 40 := by
          calc ((counts.map F).map (fun x => |x|)).sum ≤ 5 * (1 / 200) := h2
            _ = 1 / 40 := by norm_num
        exact le_trans h1 hsum_le

/-- Witness for C2 (amended) at the counterexample row (1, 1, 1, 1, 3). -/
theorem C2_amended_percentage_sum_within_tolerance_witness :
    ∃ S, readbackSum
        [["S1", "7", "b_cell", "1", "14.29"],
         ["S1", "7", "cd8_t_cell", "1", "14.29"],
         ["S1", "7", "cd4_t_cell", "1", "14.29"],
         ["S1", "7", "nk_cell", "1", "14.29"],
         ["S1", "7", "monocyte", "3", "42.86"]] = some S ∧ |S - 100| ≤ 1 / 40 :=
  C2_amended_percentage_sum_within_tolerance
    [("sample", 0), ("b_cell", 1), ("cd8_t_cell", 2), ("cd4_t_cell", 3),
     ("nk_cell", 4), ("monocyte", 5)]
    ["S1", "1", "1", "1", "1", "3"] [1, 1, 1, 1, 3] _
    rfl (by intro c hc; fin_cases hc <;> norm_num) (by norm_num) rfl

/- ## C4: counting entries per cell type -/

theorem relRowOk_spec {rh : PyDict Nat} {row : Row} (h : relRowOk rh row = true) :
    (∃ sv, getField rh row SAMPLE_HEADER = Except.ok sv) ∧
    (∃ ct, getField rh row POPULATION_HEADER = Except.ok ct ∧ ct ∈ CELL_TYPES) ∧
    (∃ ps q, getField rh row PERCENTAGE_HEADER = Except.ok ps ∧ parseDecimal ps = some q) := by
  rw [relRowOk] at h
  rw [Bool.and_eq_true, Bool.and_eq_true] at h
  obtain ⟨⟨hs, hp⟩, hq⟩ := h
  refine ⟨?_, ?_, ?_⟩
  · cases h1 : getField rh row SAMPLE_HEADER with
    | error e => rw [h1] at hs; exact absurd hs (by simp)
    | ok sv => exact ⟨sv, rfl⟩
  · cases h2 : getField rh row POPULATION_HEADER with
    | error e => rw [h2] at hp; exact absurd hp (by simp)
    | ok ct =>
        rw [h2] at hp
        have hp' : decide (ct ∈ CELL_TYPES) = true := hp
        exact ⟨ct, rfl, of_decide_eq_true hp'⟩
  · cases h3 : getField rh row PERCENTAGE_HEADER with
    | error e => rw [h3] at hq; exact absurd hq (by simp)
    | ok ps =>
        rw [h3] at hq
        have hq' : (parseDecimal ps).isSome = true := hq
        cases h4 : parseDecimal ps with
        | none => rw [h4] at hq'; exact absurd hq' (by simp)
        | some q => exact ⟨ps, q, rfl, h4⟩

theorem rowQualifies_spec {th : PyDict Nat} {row : Row}
    (h : rowQualifies th row = true) :
    getField th row TREATMENT_HEADER = Except.ok TREATMENT ∧
    ∃ sy, getField th row SAMPLE_TYPE_HEADER = Except.ok sy ∧
      sy ∈ INCLUDE_SAMPLE_TYPES := by
  rw [rowQualifies] at h
  cases h1 : getField th row TREATMENT_HEADER with
  | error e => rw [h1] at h; exact absurd h (by simp)
  | ok t =>
      rw [h1] at h
      have h' : (if t = TREATMENT then
          (match getField th row SAMPLE_TYPE_HEADER with
           | Except.ok s => decide (s ∈ INCLUDE_SAMPLE_TYPES)
           | Except.error _ => false)
          else false) = true := h
      by_cases ht : t = TREATMENT
      · rw [if_pos ht] at h'
        cases h2 : getField th row SAMPLE_TYPE_HEADER with
        | error e => rw [h2] at h'; exact absurd h' (by simp)
        | ok sy =>
            rw [h2] at h'
            have h'' : decide (sy ∈ INCLUDE_SAMPLE_TYPES) = true := h'
            subst ht
            exact ⟨rfl, sy, rfl, of_decide_eq_true h''⟩
      · rw [if_neg ht] at h'
        exact absurd h' (by simp)

theorem rowQualifies_true_of {th : PyDict Nat} {row : Row} {sy : String}
    (h1 : getField th row TREATMENT_HEADER = Except.ok TREATMENT)
    (h2 : getField th row SAMPLE_TYPE_HEADER = Except.ok sy)
    (h3 : sy ∈ INCLUDE_SAMPLE_TYPES) :
    rowQualifies th row = true := by
  rw [rowQualifies, h1, h2]
  show (if TREATMENT = TREATMENT then decide (sy ∈ INCLUDE_SAMPLE_TYPES) else false) = true
  rw [if_pos rfl]
  exact decide_eq_true h3

theorem gsr_wellformed (rh : PyDict Nat) (s : String) :
    ∀ (rcsv : Csv) (d : PyDict ℚ),
      (∀ row ∈ rcsv, relRowOk rh row = true) →
      (d.map Prod.fst ++ (rcsv.filter (relSampleIs rh s)).map (relPopOf rh)).Nodup →
      ∃ d', exceptFoldl (get_sample_relative_step rh s) d rcsv = Except.ok d' ∧
        d'.map Prod.fst
          = d.map Prod.fst ++ (rcsv.filter (relSampleIs rh s)).map (relPopOf rh) := by
  intro rcsv
  induction rcsv with
  | nil =>
      intro d _ _
      exact ⟨d, rfl, by simp⟩
  | cons row rest ih =>
      intro d hall hnodup
      obtain ⟨⟨sv, hsv⟩, ⟨ct, hct, hctmem⟩, ⟨ps, q, hps, hq⟩⟩ :=
        relRowOk_spec (hall row (List.mem_cons_self row rest))
      have hall' : ∀ r ∈ rest, relRowOk rh r = true :=
        fun r hr => hall r (List.mem_cons_of_mem row hr)
      by_cases hmatch : sv = s
      · have hfil : relSampleIs rh s row = true := by
          rw [relSampleIs, hsv]
          exact decide_eq_true hmatch
        have hpop : relPopOf rh row = ct := by
          rw [relPopOf, hct]
        rw [List.filter_cons_of_pos hfil] at hnodup ⊢
        rw [List.map_cons, hpop] at hnodup ⊢
        -- ct is not among the keys of d
        have hctd : ct ∉ d.map Prod.fst := by
          intro hmem
          rcases List.nodup_append.1 hnodup with ⟨_, _, hdisj⟩
          exact hdisj hmem (List.mem_cons_self _ _)
        have hnone : dictGet? d ct = none := (dictGet?_eq_none_iff d ct).2 hctd
        have hstep : get_sample_relative_step rh s d row
            = Except.ok (dictSet d ct q) := by
          rw [get_sample_relative_step, hsv, exceptBind_ok, if_pos hmatch, hct,
            exceptBind_ok, hnone]
          rw [if_neg (by simp [truthyFloat])]
          rw [hps, exceptBind_ok, pyFloat, hq, exceptBind_ok, exceptPure]
        have hkeys₁ : (dictSet d ct q).map Prod.fst = d.map Prod.fst ++ [ct] := by
          rw [dictSet_of_not_mem d q hctd, List.map_append]
          rfl
        have hnodup' : ((dictSet d ct q).map Prod.fst
            ++ (rest.filter (relSampleIs rh s)).map (relPopOf rh)).Nodup := by
          rw [hkeys₁, List.append_assoc]
          simpa using hnodup
        rcases ih (dictSet d ct q) hall' hnodup' with ⟨d', hfold, hkeys'⟩
        refine ⟨d', ?_, ?_⟩
        · rw [exceptFoldl, hstep]
          exact hfold
        · rw [hkeys', hkeys₁, List.append_assoc]
          rfl
      · have hfil : relSampleIs rh s row = false := by
          rw [relSampleIs, hsv]
          exact decide_eq_false hmatch
        have hstep : get_sample_relative_step rh s d row = Except.ok d := by
          rw [get_sample_relative_step, hsv, exceptBind_ok, if_neg hmatch, exceptPure]
        rw [List.filter_cons_of_neg (by simp [hfil])] at hnodup ⊢
        rcases ih d hall' hnodup with ⟨d', hfold, hkeys'⟩
        refine ⟨d', ?_, hkeys'⟩
        rw [exceptFoldl, hstep]
        exact hfold

theorem appendAll_count :
    ∀ (items : PyDict ℚ) (counter : PyDict (List ℚ)),
      (∀ k ∈ items.map Prod.fst, k ∈ counter.map Prod.fst) →
      ∃ c', appendAll counter items = Except.ok c' ∧
        c'.map Prod.fst = counter.map Prod.fst ∧
        ∀ k lst, dictGet? counter k = some lst →
          ∃ lst', dictGet? c' k = some lst' ∧
            lst'.length = lst.length + (items.map Prod.fst).count k := by
  intro items
  induction items with
  | nil =>
      intro counter _
      exact ⟨counter, rfl, rfl, fun k lst hk => ⟨lst, hk, by simp⟩⟩
  | cons p rest ih =>
      intro counter hmem
      have hp : p.1 ∈ counter.map Prod.fst :=
        hmem p.1 (by rw [List.map_cons]; exact List.mem_cons_self _ _)
      obtain ⟨lst₀, hlst₀⟩ : ∃ lst₀, dictGet? counter p.1 = some lst₀ := by
        have := (dictGet?_isSome_iff counter p.1).2 hp
        cases hg : dictGet? counter p.1 with
        | none => rw [hg] at this; exact absurd this (by simp)
        | some l => exact ⟨l, rfl⟩
      have hkeys₁ : (dictSet counter p.1 (lst₀ ++ [p.2])).map Prod.fst
          = counter.map Prod.fst := dictSet_keys_of_mem counter _ hp
      have hmem' : ∀ k ∈ rest.map Prod.fst,
          k ∈ (dictSet counter p.1 (lst₀ ++ [p.2])).map Prod.fst := by
        intro k hk
        rw [hkeys₁]
        exact hmem k (by rw [List.map_cons]; exact List.mem_cons_of_mem _ hk)
      rcases ih (dictSet counter p.1 (lst₀ ++ [p.2])) hmem' with ⟨c', hfold, hkeys', hcount⟩
      refine ⟨c', ?_, by rw [hkeys', hkeys₁], ?_⟩
      · rw [appendAll, exceptFoldl, hlst₀]
        exact hfold
      · intro k lst hk
        by_cases hkp : k = p.1
        · have hlst : lst = lst₀ := by
            rw [hkp] at hk
            rw [hk] at hlst₀
            exact Option.some.inj hlst₀
          subst hlst
          have hset : dictGet? (dictSet counter p.1 (lst ++ [p.2])) k
              = some (lst ++ [p.2]) := by
            rw [hkp]
            exact dictGet?_dictSet_self counter p.1 _
          rcases hcount k (lst ++ [p.2]) hset with ⟨lst', hlst', hlen⟩
          refine ⟨lst', hlst', ?_⟩
          rw [hlen, List.length_append, List.map_cons, hkp, List.count_cons_self]
          simp only [List.length_cons, List.length_nil]
          omega
        · have hset : dictGet? (dictSet counter p.1 (lst₀ ++ [p.2])) k
              = some lst := by
            rw [dictGet?_dictSet_ne counter _ (fun h => hkp h.symm), hk]
          rcases hcount k lst hset with ⟨lst', hlst', hlen⟩
          refine ⟨lst', hlst', ?_⟩
          rw [hlen, List.map_cons, List.count_cons_of_ne hkp]

theorem C4_fold (th rh : PyDict Nat) (rcsv : Csv)
    (hrel : ∀ row ∈ rcsv, relRowOk rh row = true) :
    ∀ (tcsv : Csv) (st₀ st : Cohorts),
      exceptFoldl (calculate_responders_step th rh rcsv) st₀ tcsv = Except.ok st →
      (∀ row ∈ tcsv, rowQualifies th row = true →
        ∀ s, getField th row SAMPLE_HEADER = Except.ok s →
          ((rcsv.filter (relSampleIs rh s)).map (relPopOf rh)).Perm CELL_TYPES) →
      st₀.1.map Prod.fst = CELL_TYPES → st₀.2.map Prod.fst = CELL_TYPES →
      ∀ ct ∈ CELL_TYPES, ∀ l₁ l₂,
        dictGet? st₀.1 ct = some l₁ → dictGet? st₀.2 ct = some l₂ →
        ∃ m₁ m₂, dictGet? st.1 ct = some m₁ ∧ dictGet? st.2 ct = some m₂ ∧
          m₁.length + m₂.length
            = l₁.length + l₂.length + (tcsv.filter (rowQualifies th)).length := by
  intro tcsv
  induction tcsv with
  | nil =>
      intro st₀ st hfold _ _ _ ct hct l₁ l₂ h₁ h₂
      rw [exceptFoldl] at hfold
      cases hfold
      exact ⟨l₁, l₂, h₁, h₂, by simp⟩
  | cons row rest ih =>
      intro st₀ st hfold hone hk1 hk2 ct hct l₁ l₂ h₁ h₂
      rw [exceptFoldl] at hfold
      cases hstep : calculate_responders_step th rh rcsv st₀ row with
      | error e => rw [hstep] at hfold; exact Except.noConfusion hfold
      | ok st₁ =>
          rw [hstep] at hfold
          have hone' : ∀ r ∈ rest, rowQualifies th r = true → ∀ s,
              getField th r SAMPLE_HEADER = Except.ok s →
              ((rcsv.filter (relSampleIs rh s)).map (relPopOf rh)).Perm CELL_TYPES :=
            fun r hr => hone r (List.mem_cons_of_mem row hr)
          by_cases hqual : rowQualifies th row = true
          · obtain ⟨ht, sy, hsy, hsymem⟩ := rowQualifies_spec hqual
            rw [calculate_responders_step, ht, exceptBind_ok, if_pos rfl, hsy,
              exceptBind_ok, if_pos hsymem] at hstep
            cases hsid : getField th row SAMPLE_HEADER with
            | error e => rw [hsid, exceptBind_err] at hstep; exact Except.noConfusion hstep
            | ok sid =>
                rw [hsid, exceptBind_ok] at hstep
                have hperm := hone row (List.mem_cons_self row rest) hqual sid hsid
                have hnodup : (([] : PyDict ℚ).map Prod.fst
                    ++ (rcsv.filter (relSampleIs rh sid)).map (relPopOf rh)).Nodup := by
                  simp only [List.map_nil, List.nil_append]
                  exact hperm.nodup_iff.2 (by decide)
                obtain ⟨d', hfold', hkeys'⟩ := gsr_wellformed rh sid rcsv [] hrel hnodup
                have hgs : get_sample_relative rh rcsv sid = Except.ok d' := hfold'
                rw [hgs, exceptBind_ok] at hstep
                simp only [List.map_nil, List.nil_append] at hkeys'
                have hdperm : (d'.map Prod.fst).Perm CELL_TYPES := by
                  rw [hkeys']
                  exact hperm
                have hcount1 : (d'.map Prod.fst).count ct = 1 := by
                  rw [hdperm.count_eq]
                  exact List.count_eq_one_of_mem (by decide) hct
                cases hrv : getField th row RESPONSE_HEADER with
                | error e => rw [hrv, exceptBind_err] at hstep; exact Except.noConfusion hstep
                | ok rv =>
                    rw [hrv, exceptBind_ok] at hstep
                    by_cases hrvy : rv = RESPONDING
                    · rw [if_pos hrvy] at hstep
                      have hmemkeys : ∀ k ∈ d'.map Prod.fst, k ∈ st₀.1.map Prod.fst := by
                        intro k hk
                        rw [hk1]
                        exact hdperm.mem_iff.1 hk
                      obtain ⟨c', happ, hckeys, hccount⟩ := appendAll_count d' st₀.1 hmemkeys
                      rw [happ, exceptBind_ok, exceptPure] at hstep
                      have hst₁ : st₁ = (c', st₀.2) := (Except.ok.inj hstep).symm
                      subst hst₁
                      obtain ⟨l₁', hl₁', hlen₁⟩ := hccount ct l₁ h₁
                      rw [hcount1] at hlen₁
                      have hk1' : ((c', st₀.2) : Cohorts).1.map Prod.fst = CELL_TYPES := by
                        show c'.map Prod.fst = CELL_TYPES
                        rw [hckeys, hk1]
                      obtain ⟨m₁, m₂, hm₁, hm₂, hmlen⟩ :=
                        ih (c', st₀.2) st hfold hone' hk1' hk2 ct hct l₁' l₂ hl₁' h₂
                      refine ⟨m₁, m₂, hm₁, hm₂, ?_⟩
                      rw [List.filter_cons_of_pos hqual, List.length_cons]
                      omega
                    · rw [if_neg hrvy] at hstep
                      have hmemkeys : ∀ k ∈ d'.map Prod.fst, k ∈ st₀.2.map Prod.fst := by
                        intro k hk
                        rw [hk2]
                        exact hdperm.mem_iff.1 hk
                      obtain ⟨c', happ, hckeys, hccount⟩ := appendAll_count d' st₀.2 hmemkeys
                      rw [happ, exceptBind_ok, exceptPure] at hstep
                      have hst₁ : st₁ = (st₀.1, c') := (Except.ok.inj hstep).symm
                      subst hst₁
                      obtain ⟨l₂', hl₂', hlen₂⟩ := hccount ct l₂ h₂
                      rw [hcount1] at hlen₂
                      have hk2' : ((st₀.1, c') : Cohorts).2.map Prod.fst = CELL_TYPES := by
                        show c'.map Prod.fst = CELL_TYPES
                        rw [hckeys, hk2]
                      obtain ⟨m₁, m₂, hm₁, hm₂, hmlen⟩ :=
                        ih (st₀.1, c') st hfold hone' hk1 hk2' ct hct l₁ l₂' h₁ hl₂'
                      refine ⟨m₁, m₂, hm₁, hm₂, ?_⟩
                      rw [List.filter_cons_of_pos hqual, List.length_cons]
                      omega
          · have hst : st₁ = st₀ := by
              rw [calculate_responders_step] at hstep
              cases ht : getField th row TREATMENT_HEADER with
              | error e =>
                  rw [ht, exceptBind_err] at hstep
                  exact Except.noConfusion hstep
              | ok t =>
                  rw [ht, exceptBind_ok] at hstep
                  by_cases htt : t = TREATMENT
                  · rw [if_pos htt] at hstep
                    cases hsy : getField th row SAMPLE_TYPE_HEADER with
                    | error e =>
                        rw [hsy, exceptBind_err] at hstep
                        exact Except.noConfusion hstep
                    | ok sy =>
                        rw [hsy, exceptBind_ok] at hstep
                        by_cases hsymem : sy ∈ INCLUDE_SAMPLE_TYPES
                        · exact absurd
                            (rowQualifies_true_of (by rw [← htt]; exact ht) hsy hsymem) hqual
                        · rw [if_neg hsymem, exceptPure] at hstep
                          exact (Except.ok.inj hstep).symm
                  · rw [if_neg htt, exceptPure] at hstep
                    exact (Except.ok.inj hstep).symm
            subst hst
            obtain ⟨m₁, m₂, hm₁, hm₂, hmlen⟩ :=
              ih st₁ st hfold hone' hk1 hk2 ct hct l₁ l₂ h₁ h₂
            refine ⟨m₁, m₂, hm₁, hm₂, ?_⟩
            rw [List.filter_cons_of_neg hqual]
            exact hmlen

/-- C4: for every treatment and relative-count table in which every relative
row is readable and each qualifying sample id has exactly one record per cell
type (its records' populations are a permutation of the enumeration), the
number of percentage entries contributed per cell type across both cohort
accumulators of `calculate_responders` equals the number of treatment rows
that pass the treatment/sample-type filter: no qualifying sample is dropped
or double-counted. -/
theorem C4_entries_per_cell_type_count (th rh : PyDict Nat) (tcsv rcsv : Csv)
    (st : Cohorts)
    (hok : calculate_responders th tcsv rh rcsv = Except.ok st)
    (hrel : ∀ row ∈ rcsv, relRowOk rh row = true)
    (hone : ∀ row ∈ tcsv, rowQualifies th row = true →
      ∀ s, getField th row SAMPLE_HEADER = Except.ok s →
        ((rcsv.filter (relSampleIs rh s)).map (relPopOf rh)).Perm CELL_TYPES) :
    ∀ ct ∈ CELL_TYPES, ∃ lr ln, dictGet? st.1 ct = some lr ∧
      dictGet? st.2 ct = some ln ∧
      lr.length + ln.length = (tcsv.filter (rowQualifies th)).length := by
  intro ct hct
  have hinit1 : initCohorts.1.map Prod.fst = CELL_TYPES := by decide
  have hinit2 : initCohorts.2.map Prod.fst = CELL_TYPES := by decide
  have hg1 : dictGet? initCohorts.1 ct = some [] := by
    fin_cases hct <;> rfl
  have hg2 : dictGet? initCohorts.2 ct = some [] := by
    fin_cases hct <;> rfl
  obtain ⟨m₁, m₂, hm₁, hm₂, hmlen⟩ :=
    C4_fold th rh rcsv hrel tcsv initCohorts st hok hone hinit1 hinit2 ct hct [] [] hg1 hg2
  exact ⟨m₁, m₂, hm₁, hm₂, by simpa using hmlen⟩

/-- Witness for C4: one qualifying treatment row whose sample has exactly one
relative record per cell type; each cell type receives exactly one entry. -/
theorem C4_entries_per_cell_type_count_witness :
    ∃ lr ln,
      dictGet? ([("b_cell", [(10 : ℚ)]), ("cd8_t_cell", [20]), ("cd4_t_cell", [30]),
        ("nk_cell", [20]), ("monocyte", [20])] : PyDict (List ℚ)) "b_cell" = some lr ∧
      dictGet? ([("b_cell", ([] : List ℚ)), ("cd8_t_cell", []), ("cd4_t_cell", []),
        ("nk_cell", []), ("monocyte", [])] : PyDict (List ℚ)) "b_cell" = some ln ∧
      lr.length + ln.length =
        (([["S1", "tr1", "PBMC", "y"]] : Csv).filter
          (rowQualifies [("sample", 0), ("treatment", 1), ("sample_type", 2),
            ("response", 3)])).length := by
  have h := C4_entries_per_cell_type_count
    [("sample", 0), ("treatment", 1), ("sample_type", 2), ("response", 3)]
    [("sample", 0), ("total_count", 1), ("population", 2), ("count", 3), ("percentage", 4)]
    [["S1", "tr1", "PBMC", "y"]]
    [["S1", "100", "b_cell", "10", "10.00"],
     ["S1", "100", "cd8_t_cell", "20", "20.00"],
     ["S1", "100", "cd4_t_cell", "30", "30.00"],
     ["S1", "100", "nk_cell", "20", "20.00"],
     ["S1", "100", "monocyte", "20", "20.00"]]
    ([("b_cell", [(10 : ℚ)]), ("cd8_t_cell", [20]), ("cd4_t_cell", [30]),
       ("nk_cell", [20]), ("monocyte", [20])],
     [("b_cell", []), ("cd8_t_cell", []), ("cd4_t_cell", []),
       ("nk_cell", []), ("monocyte", [])])
    rfl
    (by decide)
    (by
      intro row hrow hq s hs
      rcases List.mem_singleton.1 hrow with rfl
      have hs' : Except.ok "S1" = Except.ok s := hs
      have hss : s = "S1" := (Except.ok.inj hs').symm
      subst hss
      decide)
    "b_cell" (by decide)
  exact h

end CellCounts
